import Mathlib

/-!
Verification development for the checkpoint evaluation pipeline of
src/eval.py (batch evaluation harness for adapter checkpoints).

Texts are embedded as lists of characters (`Str`).  The Python string
primitives used by the script (`s.split(pat, 1)`, `s.replace(old, new)`,
`s.strip()`, the `in` containment test) are embedded below, followed by
the dataset loader/templater, the response extractor/writer, the
per-checkpoint evaluator loop with its idempotent file-existence skip,
and the command-line argument parser declared at the top of the script.
-/

/-- Texts of the program, as lists of characters. -/
abbrev Str := List Char

/-- Python `s.split(pat, 1)` for a pattern that occurs in `s`:
returns the parts before and after the first occurrence of `pat`;
returns `none` when `pat` does not occur (the script guards the call
with an `in` test, embedded as the `Option`). -/
def splitAtFirst (pat : Str) : Str → Option (Str × Str)
  | [] => none
  | c :: cs =>
    if pat.isPrefixOf (c :: cs) then some ([], (c :: cs).drop pat.length)
    else (splitAtFirst pat cs).map fun p => (c :: p.1, p.2)

/-- Fuel-indexed single left-to-right replacement pass; the fuel only
bounds the recursion depth and is immaterial once it is at least the
length of the text (see pyReplaceFuel_congr). -/
def pyReplaceFuel (pat repl : Str) : Nat → Str → Str
  | _, [] => []
  | 0, s => s
  | f + 1, c :: cs =>
    if pat ≠ [] ∧ pat.isPrefixOf (c :: cs) then
      repl ++ pyReplaceFuel pat repl f ((c :: cs).drop pat.length)
    else
      c :: pyReplaceFuel pat repl f cs

/-- Python `s.replace(old, new)`: one left-to-right pass replacing each
non-overlapping occurrence of `pat`; replaced text is not re-scanned. -/
def pyReplace (pat repl s : Str) : Str := pyReplaceFuel pat repl s.length s

/-- ASCII whitespace characters stripped by Python `s.strip()`. -/
def isPySpace (c : Char) : Bool :=
  c = ' ' || c = '\t' || c = '\n' || c = '\r' || c = '\x0b' || c = '\x0c'

/-- Python `s.strip()`: drop leading and trailing whitespace. -/
def pyStrip (s : Str) : Str :=
  ((s.dropWhile isPySpace).reverse.dropWhile isPySpace).reverse

/-- The response marker the extractor splits on (src/eval.py line 120). -/
def respMarker : Str := "[/INST]".data

/-- The textual begin-of-sequence marker removed by the extractor. -/
def bosText : Str := "<s>".data

/-- The textual end-of-sequence marker removed by the extractor. -/
def eosText : Str := "</s>".data

/-- Prompt template of src/eval.py lines 11-12
(`generate_prompt`; the `input` parameter of the source is unused). -/
def generate_prompt (instruction : Str) : Str :=
  "[INST] ".data ++ instruction ++ " [/INST]".data

/-- One warning logged by `logger.warning` (src/eval.py lines 124-126):
the offending example id together with the decoded output. -/
structure Warning where
  exampleId : Str
  text : Str
deriving DecidableEq, Repr

/-- Response extraction for one decoded sequence
(src/eval.py lines 118-127): if the decoded text contains the response
marker, take everything after its first occurrence, delete the
occurrences of the bos/eos text markers, strip whitespace, and emit no
warning; otherwise the hypothesis is empty and one warning carrying the
example id is recorded. -/
def processSequence (exampleId : Str) (output : Str) : Str × List Warning :=
  match splitAtFirst respMarker output with
  | some p => (pyStrip (pyReplace eosText [] (pyReplace bosText [] p.2)), [])
  | none => ([], [⟨exampleId, output⟩])

/-- One row of the benchmark table (src/eval.py lines 50-52):
columns `id`, `sentence_eng_Latn`, `sentence_ukr_Cyrl`. -/
structure Row where
  id : Str
  sentence_eng_Latn : Str
  sentence_ukr_Cyrl : Str
deriving DecidableEq, Repr

/-- One in-memory dataset entry (src/eval.py lines 56-64); the tokenized
input ids are an external tokenizer product and are not modelled. -/
structure BenchmarkExample where
  id : Str
  orig : Str
  trans : Str
  prompt : Str
deriving DecidableEq, Repr

/-- Dataset construction for one row (src/eval.py lines 51-64). -/
def mkExample (d : Row) : BenchmarkExample :=
  { id := d.id
  , orig := d.sentence_eng_Latn
  , trans := d.sentence_ukr_Cyrl
  , prompt := generate_prompt d.sentence_eng_Latn }

/-- One data row of a result table (src/eval.py lines 130-137). -/
structure CsvRow where
  id : Str
  source : Str
  reference : Str
  hypothesis : Str
deriving DecidableEq, Repr

/-- One line of a result table: the header written by `writeheader`
(src/eval.py line 95) or a data row written by `writerow`. -/
inductive CsvLine where
  | header
  | row (r : CsvRow)
deriving DecidableEq, Repr

/-- The output directory as a flat map from path to file content. -/
abbrev FS := List (Str × List CsvLine)

/-- Content of the file at a path, if present. -/
def fsLookup (fs : FS) (p : Str) : Option (List CsvLine) := fs.lookup p

/-- Python `os.path.exists` (src/eval.py line 79) on the modelled
output directory. -/
def fsExists (fs : FS) (p : Str) : Bool := (fsLookup fs p).isSome

/-- Opening a file in mode "w" and writing `content` (truncate-and-write). -/
def fsWrite (fs : FS) (p : Str) (content : List CsvLine) : FS := (p, content) :: fs

/-- Result rows produced for one example from the decoded sequences of
one generation call: one row per sequence, in the order returned, with
id/source/reference taken from the example (src/eval.py lines 118-137). -/
def rowsFor (ex : BenchmarkExample) (outs : List Str) : List CsvLine :=
  outs.map fun o =>
    CsvLine.row
      { id := ex.id
      , source := ex.orig
      , reference := ex.trans
      , hypothesis := (processSequence ex.id o).1 }

/-- Warnings produced for one example from the decoded sequences of one
generation call (src/eval.py lines 123-127). -/
def warnsFor (ex : BenchmarkExample) (outs : List Str) : List Warning :=
  outs.flatMap fun o => (processSequence ex.id o).2

/-- Decoding preset to beam count (src/eval.py lines 97-103). -/
def beamsOf (preset : Str) : Nat :=
  if preset = "beam25".data then 25
  else if preset = "beam15".data then 15
  else if preset = "beam10".data then 10
  else 1

/-- Outcome of the per-example generation loop of one checkpoint
(src/eval.py lines 105-137). -/
structure RunResult where
  lines : List CsvLine
  warns : List Warning
  calls : Nat
  completed : Bool
deriving DecidableEq, Repr

/-- The per-example loop (src/eval.py lines 105-137): one generation
call per example, in dataset order.  `gen ex = none` embeds the external
engine raising during the call; the exception is not caught, so the loop
stops there, keeping the rows already written.  `calls` counts the
generation calls performed (including a raising one). -/
def runExamples (gen : BenchmarkExample → Option (List Str)) :
    List BenchmarkExample → RunResult
  | [] => ⟨[], [], 0, true⟩
  | ex :: rest =>
    match gen ex with
    | none => ⟨[], [], 1, false⟩
    | some outs =>
      let r := runExamples gen rest
      ⟨rowsFor ex outs ++ r.lines, warnsFor ex outs ++ r.warns,
        r.calls + 1, r.completed⟩

/-- Checkpoint slug: `checkpoint.replace("/", "-")` (src/eval.py line 76). -/
def checkpoint_slug (checkpoint : Str) : Str :=
  pyReplace "/".data "-".data checkpoint

/-- Output path of a checkpoint's result table (src/eval.py line 77). -/
def output_file (output_dir preset checkpoint : Str) : Str :=
  output_dir ++ "/".data ++ checkpoint_slug checkpoint
    ++ ".".data ++ preset ++ ".csv".data

/-- Process-wide evaluator state threaded through the checkpoint loop:
the shared base model, the output directory contents, the warnings
logged so far, and the number of generation calls performed. -/
structure EvalState (Model : Type) where
  base : Model
  fs : FS
  warnings : List Warning
  genCalls : Nat
deriving DecidableEq

/-- One iteration of the checkpoint loop (src/eval.py lines 74-137).
The external Text Generation Engine capabilities are parameters:
`specialize` embeds `PeftModel.from_pretrained` followed by
`merge_and_unload` (modelled from the spec: adapter merging is out of
scope and must return a derived model without mutating the shared base),
`toHalfCuda` embeds `.half().cuda()`, and `engine m beams ex` embeds the
`generate`-and-`decode` calls, returning the decoded sequences or `none`
when the engine raises.  If the output file already exists the
checkpoint is skipped and the state is untouched; otherwise the file is
created and holds the header followed by the rows produced before the
loop finished or aborted.  The returned flag is false when an uncaught
generation failure aborted the loop. -/
def stepCheckpoint {Model : Type}
    (specialize : Model → Str → Model) (toHalfCuda : Model → Model)
    (engine : Model → Nat → BenchmarkExample → Option (List Str))
    (dataset : List BenchmarkExample) (output_dir preset : Str)
    (st : EvalState Model) (checkpoint : Str) : EvalState Model × Bool :=
  let path := output_file output_dir preset checkpoint
  if fsExists st.fs path then (st, true)
  else
    let m := toHalfCuda (specialize st.base checkpoint)
    let r := runExamples (engine m (beamsOf preset)) dataset
    ({ st with
        fs := fsWrite st.fs path (CsvLine.header :: r.lines)
      , warnings := st.warnings ++ r.warns
      , genCalls := st.genCalls + r.calls }, r.completed)

/-- The checkpoint loop (src/eval.py lines 74-137): checkpoints are
processed strictly in list order; an uncaught generation failure
terminates the whole run, so the remaining checkpoints are not
attempted in that run. -/
def evalCheckpoints {Model : Type}
    (specialize : Model → Str → Model) (toHalfCuda : Model → Model)
    (engine : Model → Nat → BenchmarkExample → Option (List Str))
    (dataset : List BenchmarkExample) (output_dir preset : Str) :
    EvalState Model → List Str → EvalState Model × Bool
  | st, [] => (st, true)
  | st, c :: rest =>
    let r := stepCheckpoint specialize toHalfCuda engine dataset
      output_dir preset st c
    if r.2 then
      evalCheckpoints specialize toHalfCuda engine dataset output_dir preset
        r.1 rest
    else (r.1, false)

/-- Parsed command-line arguments (src/eval.py lines 24-33).
`checkpoints` is `none` when the option was never given (argparse leaves
the attribute at its default `None` because `--checkpoints` carries no
`default` and no `required` flag). -/
structure Args where
  base_model : Str
  checkpoints : Option (List Str)
  output_dir : Str
  dataset : Str
  preset : Str
deriving DecidableEq, Repr

/-- Defaults declared in the `add_argument` calls (src/eval.py 25-31). -/
def defaultArgs : Args :=
  { base_model := "mistralai/Mistral-7B-v0.1".data
  , checkpoints := none
  , output_dir := "eval".data
  , dataset := "data/flores_eng_ukr_major.csv".data
  , preset := "greedy".data }

/-- The closed choices list of the preset option (src/eval.py line 30). -/
def presetChoices : List Str :=
  ["greedy".data, "beam25".data, "beam15".data, "beam10".data]

/-- Value collection of an option declared with zero-or-more values:
consume tokens until one looks like an option. -/
def takeStarValues : List Str → List Str × List Str
  | [] => ([], [])
  | t :: ts =>
    if "--".data.isPrefixOf t then ([], t :: ts)
    else
      let r := takeStarValues ts
      (t :: r.1, r.2)

/-- Modelled from the spec: the argument-parsing behaviour of the
argparse declaration in src/eval.py lines 24-33 (the argparse machinery
itself is external library code).  Space-separated invocations: each
recognised option consumes its value(s); `--checkpoints`, declared with
zero-or-more values, consumes the following non-option tokens;
`--preset` rejects any value outside its choices list; unknown tokens
and options missing their value are rejected (`none` embeds the argparse
error exit). -/
def parseArgsFuel : Nat → Args → List Str → Option Args
  | _, acc, [] => some acc
  | 0, _, _ :: _ => none
  | f + 1, acc, flag :: rest =>
    if flag = "--checkpoints".data then
      let r := takeStarValues rest
      parseArgsFuel f { acc with checkpoints := some r.1 } r.2
    else
      match rest with
      | [] => none
      | v :: rest2 =>
        if "--".data.isPrefixOf v then none
        else if flag = "--base_model".data then
          parseArgsFuel f { acc with base_model := v } rest2
        else if flag = "--output-dir".data then
          parseArgsFuel f { acc with output_dir := v } rest2
        else if flag = "--dataset".data then
          parseArgsFuel f { acc with dataset := v } rest2
        else if flag = "--preset".data then
          if v ∈ presetChoices then parseArgsFuel f { acc with preset := v } rest2
          else none
        else none

/-- Entry point of the argument parser model: the fuel only bounds the
recursion depth and the argument list strictly shrinks at each step, so
its length is always enough fuel. -/
def parseArgsFrom (acc : Args) (argv : List Str) : Option Args :=
  parseArgsFuel argv.length acc argv

/-- Observable outcome of one process run (src/eval.py lines 23-137). -/
inductive MainResult (Model : Type) where
  | usageError
  | crashedAtLen
  | finished (st : EvalState Model) (completed : Bool)
deriving DecidableEq

/-- The main program (src/eval.py lines 23-137): parse the arguments
(argparse error exits before anything else runs); the very next
statement evaluates `len(args.checkpoints)`, which raises a `TypeError`
when the option was omitted (`crashedAtLen`), before the dataset is
read; otherwise load and template the dataset rows, load the base
model, and run the checkpoint loop. -/
def runMain {Model : Type}
    (specialize : Model → Str → Model) (toHalfCuda : Model → Model)
    (engine : Model → Nat → BenchmarkExample → Option (List Str))
    (base : Model) (rows : List Row) (fs : FS) (argv : List Str) :
    MainResult Model :=
  match parseArgsFrom defaultArgs argv with
  | none => .usageError
  | some args =>
    match args.checkpoints with
    | none => .crashedAtLen
    | some cks =>
      let dataset := rows.map mkExample
      let r := evalCheckpoints specialize toHalfCuda engine dataset
        args.output_dir args.preset ⟨base, fs, [], 0⟩ cks
      .finished r.1 r.2

/-! Lemmas about occurrences of a pattern in a text. -/

theorem infix_cons_of (a : Char) {pat l : List Char} (h : pat <:+: l) :
    pat <:+: a :: l := by
  obtain ⟨s, t, rfl⟩ := h
  exact ⟨a :: s, t, rfl⟩

theorem prefix_append_cases {pat x y : List Char} (h : pat <+: x ++ y) :
    pat <+: x ∨ (x <+: pat ∧ pat.drop x.length <+: y) := by
  induction x generalizing pat with
  | nil => exact Or.inr ⟨List.nil_prefix, by simpa using h⟩
  | cons c x ih =>
    match pat with
    | [] => exact Or.inl List.nil_prefix
    | p :: pt =>
      rw [List.cons_append, List.cons_prefix_cons] at h
      rcases ih h.2 with h2 | ⟨h2, h3⟩
      · exact Or.inl (List.cons_prefix_cons.mpr ⟨h.1, h2⟩)
      · exact Or.inr ⟨List.cons_prefix_cons.mpr ⟨h.1.symm, h2⟩, by simpa using h3⟩

theorem infix_append_cases {pat x y : List Char} (h : pat <:+: x ++ y) :
    pat <:+: x ∨ pat <:+: y ∨
      ∃ k, 0 < k ∧ k < pat.length ∧ pat.take k <:+ x ∧ pat.drop k <+: y := by
  induction x generalizing pat with
  | nil => exact Or.inr (Or.inl (by simpa using h))
  | cons c x ih =>
    rw [List.cons_append] at h
    rcases List.infix_cons_iff.mp h with hp | ht
    · rw [show c :: (x ++ y) = (c :: x) ++ y from rfl] at hp
      rcases prefix_append_cases hp with h1 | ⟨h1, h2⟩
      · exact Or.inl h1.isInfix
      · rcases Nat.lt_or_ge (c :: x).length pat.length with hlt | hge
        · refine Or.inr (Or.inr ⟨(c :: x).length, by simp, hlt, ?_, h2⟩)
          rw [← List.prefix_iff_eq_take.mp h1]
        · have heq : c :: x = pat :=
            h1.eq_of_length (Nat.le_antisymm h1.length_le hge)
          exact Or.inl (heq ▸ List.infix_refl _)
    · rcases ih ht with h1 | h1 | ⟨k, hk0, hk1, hk2, hk3⟩
      · exact Or.inl (infix_cons_of c h1)
      · exact Or.inr (Or.inl h1)
      · exact Or.inr (Or.inr ⟨k, hk0, hk1, hk2.trans (List.suffix_cons c x), hk3⟩)

/-! Lemmas about splitAtFirst. -/

theorem splitAtFirst_eq_none {pat : Str} :
    ∀ {s : Str}, ¬ pat <:+: s → splitAtFirst pat s = none := by
  intro s
  induction s with
  | nil => intro _; rfl
  | cons c cs ih =>
    intro h
    have hnp : ¬ pat.isPrefixOf (c :: cs) = true := fun hp =>
      h (List.isPrefixOf_iff_prefix.mp hp).isInfix
    simp only [splitAtFirst, if_neg hnp,
      ih (fun hi => h (infix_cons_of c hi))]
    rfl

theorem splitAtFirst_self (pat : Str) (hne : pat ≠ []) (v : Str) :
    splitAtFirst pat (pat ++ v) = some ([], v) := by
  obtain ⟨p, ps, rfl⟩ := List.exists_cons_of_ne_nil hne
  have hp : (p :: ps).isPrefixOf (p :: (ps ++ v)) = true :=
    List.isPrefixOf_iff_prefix.mpr (List.prefix_append _ _)
  simp only [List.cons_append, splitAtFirst, List.length_cons,
    List.drop_succ_cons]
  split
  · simp [List.drop_left]
  · rename_i hcond
    exact absurd hp hcond

theorem splitAtFirst_first {pat : Str} (hne : pat ≠ []) :
    ∀ u v : Str,
      (∀ u2 v2, u ++ pat ++ v = u2 ++ pat ++ v2 → u.length ≤ u2.length) →
      splitAtFirst pat (u ++ pat ++ v) = some (u, v) := by
  intro u
  induction u with
  | nil =>
    intro v _
    simpa using splitAtFirst_self pat hne v
  | cons c u ih =>
    intro v hmin
    have hnp : ¬ pat.isPrefixOf (c :: (u ++ pat ++ v)) = true := by
      intro hp
      obtain ⟨t, ht⟩ := List.isPrefixOf_iff_prefix.mp hp
      have h0 := hmin [] t (by simpa using ht.symm)
      simp at h0
    have hmin2 : ∀ u2 v2, u ++ pat ++ v = u2 ++ pat ++ v2 →
        u.length ≤ u2.length := by
      intro u2 v2 he
      have := hmin (c :: u2) v2 (by simp [he])
      simpa using this
    rw [show (c :: u) ++ pat ++ v = c :: (u ++ pat ++ v) from rfl]
    simp only [splitAtFirst, if_neg hnp, ih v hmin2, Option.map_some]
    rfl

theorem splitAtFirst_at_marker {pat : Str} (hne : pat ≠ [])
    (hbf : ∀ k, k < pat.length → 0 < k →
      pat.take k ≠ pat.drop (pat.length - k)) :
    ∀ u v : Str, ¬ pat <:+: u →
      splitAtFirst pat (u ++ pat ++ v) = some (u, v) := by
  intro u
  induction u with
  | nil =>
    intro v _
    simpa using splitAtFirst_self pat hne v
  | cons c u ih =>
    intro v hu
    have hp0 : 0 < pat.length := List.length_pos.mpr hne
    have hu2 : ¬ pat <:+: u := fun hi => hu (infix_cons_of c hi)
    have hnp : ¬ pat.isPrefixOf (c :: (u ++ pat ++ v)) = true := by
      intro hp
      have hpre : pat <+: (c :: u) ++ (pat ++ v) := by
        have h0 := List.isPrefixOf_iff_prefix.mp hp
        simpa [List.append_assoc] using h0
      rcases prefix_append_cases hpre with h1 | ⟨h1, h2⟩
      · exact hu h1.isInfix
      · rcases Nat.lt_or_ge (c :: u).length pat.length with hlt | hge
        · have h3 : pat.drop (c :: u).length <+: pat := by
            rcases prefix_append_cases h2 with h3 | ⟨h3, _⟩
            · exact h3
            · have h4 := h3.length_le
              simp only [List.length_drop, List.length_cons] at h4
              omega
          have heq : pat.drop (c :: u).length
              = pat.take (pat.length - (c :: u).length) := by
            have h5 := List.prefix_iff_eq_take.mp h3
            rwa [List.length_drop] at h5
          refine hbf (pat.length - (c :: u).length) ?_ ?_ ?_
          · simp only [List.length_cons]
            omega
          · simp only [List.length_cons] at hlt ⊢
            omega
          · rw [show pat.length - (pat.length - (c :: u).length)
                = (c :: u).length by simp only [List.length_cons] at hlt ⊢; omega]
            exact heq.symm
        · have heq : c :: u = pat :=
            h1.eq_of_length (Nat.le_antisymm h1.length_le hge)
          exact hu (by rw [heq])
    rw [show (c :: u) ++ pat ++ v = c :: (u ++ pat ++ v) from rfl]
    simp only [splitAtFirst, if_neg hnp, ih v hu2]
    rfl

/-! Lemmas about pyReplace. -/

theorem pyReplaceFuel_congr (pat repl : Str) :
    ∀ f g s, s.length ≤ f → s.length ≤ g →
      pyReplaceFuel pat repl f s = pyReplaceFuel pat repl g s := by
  intro f
  induction f with
  | zero =>
    intro g s hf _
    have hs : s = [] := List.length_eq_zero.mp (Nat.le_zero.mp hf)
    subst hs
    cases g <;> rfl
  | succ f ih =>
    intro g s hf hg
    match s with
    | [] => cases g <;> rfl
    | c :: cs =>
      match g with
      | 0 => simp at hg
      | g + 1 =>
        simp only [pyReplaceFuel]
        split
        · rename_i hcond
          have hp : 0 < pat.length := List.length_pos.mpr hcond.1
          refine congrArg (repl ++ ·) (ih g _ ?_ ?_)
          · simp only [List.length_drop, List.length_cons]
            simp only [List.length_cons] at hf
            omega
          · simp only [List.length_drop, List.length_cons]
            simp only [List.length_cons] at hg
            omega
        · refine congrArg (c :: ·) (ih g cs ?_ ?_)
          · simp only [List.length_cons] at hf
            omega
          · simp only [List.length_cons] at hg
            omega

theorem pyReplace_cons (pat repl : Str) (c : Char) (cs : Str) :
    pyReplace pat repl (c :: cs) =
      if pat ≠ [] ∧ pat.isPrefixOf (c :: cs) then
        repl ++ pyReplace pat repl ((c :: cs).drop pat.length)
      else c :: pyReplace pat repl cs := by
  show pyReplaceFuel pat repl (cs.length + 1) (c :: cs) = _
  simp only [pyReplaceFuel]
  split
  · rename_i hcond
    have hp : 0 < pat.length := List.length_pos.mpr hcond.1
    refine congrArg (repl ++ ·)
      (pyReplaceFuel_congr pat repl _ _ _ ?_ (Nat.le_refl _))
    simp only [List.length_drop, List.length_cons]
    omega
  · rfl

theorem pyReplace_no_occurrence {pat repl : Str} :
    ∀ {s : Str}, ¬ pat <:+: s → pyReplace pat repl s = s := by
  intro s
  induction s with
  | nil => intro _; rfl
  | cons c cs ih =>
    intro h
    have hnp : ¬ (pat ≠ [] ∧ pat.isPrefixOf (c :: cs) = true) := by
      rintro ⟨-, hp⟩
      exact h (List.isPrefixOf_iff_prefix.mp hp).isInfix
    rw [pyReplace_cons, if_neg hnp, ih (fun hi => h (infix_cons_of c hi))]

theorem pyReplace_head {pat repl : Str} (hne : pat ≠ []) (s : Str) :
    pyReplace pat repl (pat ++ s) = repl ++ pyReplace pat repl s := by
  obtain ⟨p, ps, rfl⟩ := List.exists_cons_of_ne_nil hne
  have hp : (p :: ps).isPrefixOf (p :: (ps ++ s)) = true :=
    List.isPrefixOf_iff_prefix.mpr (List.prefix_append _ _)
  rw [List.cons_append, pyReplace_cons]
  split
  · simp
  · rename_i hcond
    exact absurd ⟨List.cons_ne_nil p ps, hp⟩ hcond

theorem pyReplace_nil (pat repl : Str) : pyReplace pat repl [] = [] := rfl

theorem pyReplace_self {pat repl : Str} (hne : pat ≠ []) :
    pyReplace pat repl pat = repl := by
  have h := @pyReplace_head pat repl hne []
  simpa [pyReplace_nil] using h

theorem pyReplace_append_left {pat repl r : Str} :
    ∀ x : Str, ¬ pat <:+: x →
      (∀ k, k < pat.length → 0 < k →
        ¬ (pat.take k <:+ x ∧ pat.drop k <+: r)) →
      pyReplace pat repl (x ++ r) = x ++ pyReplace pat repl r := by
  intro x
  induction x with
  | nil => intro _ _; simp
  | cons c x ih =>
    intro hx hspan
    have hx2 : ¬ pat <:+: x := fun hi => hx (infix_cons_of c hi)
    have hspan2 : ∀ k, k < pat.length → 0 < k →
        ¬ (pat.take k <:+ x ∧ pat.drop k <+: r) := by
      rintro k hk1 hk2 ⟨hs, hd⟩
      exact hspan k hk1 hk2 ⟨hs.trans (List.suffix_cons c x), hd⟩
    have hnp : ¬ (pat ≠ [] ∧ pat.isPrefixOf (c :: (x ++ r)) = true) := by
      rintro ⟨hne, hp⟩
      have hpre : pat <+: (c :: x) ++ r := List.isPrefixOf_iff_prefix.mp hp
      rcases prefix_append_cases hpre with h1 | ⟨h1, h2⟩
      · exact hx h1.isInfix
      · rcases Nat.lt_or_ge (c :: x).length pat.length with hlt | hge
        · refine hspan (c :: x).length hlt (by simp) ⟨?_, h2⟩
          rw [← List.prefix_iff_eq_take.mp h1]
        · have heq : c :: x = pat :=
            h1.eq_of_length (Nat.le_antisymm h1.length_le hge)
          exact hx (by rw [heq])
    rw [show (c :: x) ++ r = c :: (x ++ r) from rfl, pyReplace_cons,
      if_neg hnp, ih hx2 hspan2, List.cons_append]

/-! Decidable facts about the concrete markers. -/

theorem respMarker_ne_nil : respMarker ≠ [] := by decide

theorem respMarker_borderfree :
    ∀ k, k < respMarker.length → 0 < k →
      respMarker.take k ≠ respMarker.drop (respMarker.length - k) := by decide

theorem respMarker_take_not_suffix_template :
    ∀ k, k < respMarker.length → 0 < k →
      ¬ respMarker.take k <:+ "[INST] ".data := by decide

theorem respMarker_drop_not_prefix_space :
    ∀ k, k < respMarker.length → 0 < k →
      ¬ respMarker.drop k <+: [' '] := by decide

theorem respMarker_not_infix_template : ¬ respMarker <:+: "[INST] ".data := by
  decide

theorem respMarker_not_infix_space : ¬ respMarker <:+: [' '] := by decide

theorem bosText_not_infix_eos : ¬ bosText <:+: eosText := by decide

theorem bosText_drop_not_prefix_eos :
    ∀ k, k < bosText.length → 0 < k → ¬ bosText.drop k <+: eosText := by decide

theorem eosText_drop_not_prefix_eos :
    ∀ k, k < eosText.length → 0 < k → ¬ eosText.drop k <+: eosText := by decide

theorem space_marker_eq : " [/INST]".data = [' '] ++ respMarker := rfl

/-! Lemmas about the per-example loop and the result tables. -/

theorem runExamples_complete (gen : BenchmarkExample → Option (List Str)) :
    ∀ ds : List BenchmarkExample, (∀ ex ∈ ds, (gen ex).isSome = true) →
      runExamples gen ds =
        ⟨ds.flatMap (fun ex => rowsFor ex ((gen ex).getD [])),
          ds.flatMap (fun ex => warnsFor ex ((gen ex).getD [])),
          ds.length, true⟩ := by
  intro ds
  induction ds with
  | nil => intro _; rfl
  | cons ex rest ih =>
    intro h
    obtain ⟨outs, houts⟩ :=
      Option.isSome_iff_exists.mp (h ex (by simp))
    have hrest := ih (fun e he => h e (by simp [he]))
    simp [runExamples, houts, hrest]

theorem runExamples_fail (gen : BenchmarkExample → Option (List Str))
    (exf : BenchmarkExample) (hf : gen exf = none) :
    ∀ ds1 ds2, (∀ ex ∈ ds1, (gen ex).isSome = true) →
      runExamples gen (ds1 ++ exf :: ds2) =
        ⟨ds1.flatMap (fun ex => rowsFor ex ((gen ex).getD [])),
          ds1.flatMap (fun ex => warnsFor ex ((gen ex).getD [])),
          ds1.length + 1, false⟩ := by
  intro ds1
  induction ds1 with
  | nil => intro ds2 _; simp [runExamples, hf]
  | cons ex rest ih =>
    intro ds2 h
    obtain ⟨outs, houts⟩ :=
      Option.isSome_iff_exists.mp (h ex (by simp))
    have hrest := ih ds2 (fun e he => h e (by simp [he]))
    simp [runExamples, houts, hrest]

theorem header_notin_rows (gen : BenchmarkExample → Option (List Str))
    (ds : List BenchmarkExample) :
    CsvLine.header ∉ ds.flatMap (fun ex => rowsFor ex ((gen ex).getD [])) := by
  simp [rowsFor]

/-! Lemmas about the modelled output directory. -/

theorem fsLookup_write_self (fs : FS) (p : Str) (c : List CsvLine) :
    fsLookup (fsWrite fs p c) p = some c := by
  simp [fsLookup, fsWrite, List.lookup]

theorem fsLookup_write_other (fs : FS) (p q : Str) (c : List CsvLine)
    (h : q ≠ p) : fsLookup (fsWrite fs p c) q = fsLookup fs q := by
  simp only [fsLookup, fsWrite, List.lookup]
  rw [show (q == p) = false from beq_eq_false_iff_ne.mpr h]

theorem fsExists_write_self (fs : FS) (p : Str) (c : List CsvLine) :
    fsExists (fsWrite fs p c) p = true := by
  simp [fsExists, fsLookup_write_self]

theorem fsExists_write_mono (fs : FS) (p q : Str) (c : List CsvLine)
    (h : fsExists fs q = true) : fsExists (fsWrite fs p c) q = true := by
  by_cases hq : q = p
  · subst hq
    exact fsExists_write_self fs q c
  · simp only [fsExists, fsLookup_write_other fs p q c hq]
    exact h

/-! Lemmas about the checkpoint loop. -/

theorem stepCheckpoint_skip {Model : Type}
    (sp : Model → Str → Model) (hc : Model → Model)
    (eng : Model → Nat → BenchmarkExample → Option (List Str))
    (ds : List BenchmarkExample) (dir p : Str) (st : EvalState Model)
    (c : Str) (h : fsExists st.fs (output_file dir p c) = true) :
    stepCheckpoint sp hc eng ds dir p st c = (st, true) := by
  simp [stepCheckpoint, h]

theorem stepCheckpoint_exists {Model : Type}
    (sp : Model → Str → Model) (hc : Model → Model)
    (eng : Model → Nat → BenchmarkExample → Option (List Str))
    (ds : List BenchmarkExample) (dir p : Str) (st : EvalState Model)
    (c : Str) :
    fsExists (stepCheckpoint sp hc eng ds dir p st c).1.fs
      (output_file dir p c) = true := by
  by_cases h : fsExists st.fs (output_file dir p c) = true
  · simp [stepCheckpoint, h]
  · simp [stepCheckpoint, h, fsExists_write_self]

theorem stepCheckpoint_mono {Model : Type}
    (sp : Model → Str → Model) (hc : Model → Model)
    (eng : Model → Nat → BenchmarkExample → Option (List Str))
    (ds : List BenchmarkExample) (dir p : Str) (st : EvalState Model)
    (c q : Str) (h : fsExists st.fs q = true) :
    fsExists (stepCheckpoint sp hc eng ds dir p st c).1.fs q = true := by
  by_cases hex : fsExists st.fs (output_file dir p c) = true
  · simp [stepCheckpoint, hex, h]
  · simp [stepCheckpoint, hex, fsExists_write_mono _ _ _ _ h]

theorem stepCheckpoint_base {Model : Type}
    (sp : Model → Str → Model) (hc : Model → Model)
    (eng : Model → Nat → BenchmarkExample → Option (List Str))
    (ds : List BenchmarkExample) (dir p : Str) (st : EvalState Model)
    (c : Str) :
    (stepCheckpoint sp hc eng ds dir p st c).1.base = st.base := by
  by_cases hex : fsExists st.fs (output_file dir p c) = true
  · simp [stepCheckpoint, hex]
  · simp [stepCheckpoint, hex]

theorem evalCheckpoints_mono {Model : Type}
    (sp : Model → Str → Model) (hc : Model → Model)
    (eng : Model → Nat → BenchmarkExample → Option (List Str))
    (ds : List BenchmarkExample) (dir p : Str) :
    ∀ (cks : List Str) (st : EvalState Model) (q : Str),
      fsExists st.fs q = true →
      fsExists (evalCheckpoints sp hc eng ds dir p st cks).1.fs q = true := by
  intro cks
  induction cks with
  | nil => intro st q h; exact h
  | cons c rest ih =>
    intro st q h
    simp only [evalCheckpoints]
    split
    · exact ih _ q (stepCheckpoint_mono sp hc eng ds dir p st c q h)
    · exact stepCheckpoint_mono sp hc eng ds dir p st c q h

theorem evalCheckpoints_base {Model : Type}
    (sp : Model → Str → Model) (hc : Model → Model)
    (eng : Model → Nat → BenchmarkExample → Option (List Str))
    (ds : List BenchmarkExample) (dir p : Str) :
    ∀ (cks : List Str) (st : EvalState Model),
      (evalCheckpoints sp hc eng ds dir p st cks).1.base = st.base := by
  intro cks
  induction cks with
  | nil => intro st; rfl
  | cons c rest ih =>
    intro st
    simp only [evalCheckpoints]
    split
    · rw [ih]
      exact stepCheckpoint_base sp hc eng ds dir p st c
    · exact stepCheckpoint_base sp hc eng ds dir p st c

theorem evalCheckpoints_all_exist {Model : Type}
    (sp : Model → Str → Model) (hc : Model → Model)
    (eng : Model → Nat → BenchmarkExample → Option (List Str))
    (ds : List BenchmarkExample) (dir p : Str) :
    ∀ (cks : List Str) (st : EvalState Model),
      (evalCheckpoints sp hc eng ds dir p st cks).2 = true →
      ∀ c ∈ cks,
        fsExists (evalCheckpoints sp hc eng ds dir p st cks).1.fs
          (output_file dir p c) = true := by
  intro cks
  induction cks with
  | nil => intro st _ c hc2; simp at hc2
  | cons c rest ih =>
    intro st hdone c2 hc2
    simp only [evalCheckpoints] at hdone ⊢
    by_cases hr2 : (stepCheckpoint sp hc eng ds dir p st c).2 = true
    case neg =>
      rw [if_neg hr2] at hdone
      simp at hdone
    case pos =>
      rw [if_pos hr2] at hdone ⊢
      rcases List.mem_cons.mp hc2 with rfl | h2
      · exact evalCheckpoints_mono sp hc eng ds dir p rest _ _
          (stepCheckpoint_exists sp hc eng ds dir p st c2)
      · exact ih _ hdone c2 h2

theorem evalCheckpoints_skip_all {Model : Type}
    (sp : Model → Str → Model) (hc : Model → Model)
    (eng : Model → Nat → BenchmarkExample → Option (List Str))
    (ds : List BenchmarkExample) (dir p : Str) :
    ∀ (cks : List Str) (st : EvalState Model),
      (∀ c ∈ cks, fsExists st.fs (output_file dir p c) = true) →
      evalCheckpoints sp hc eng ds dir p st cks = (st, true) := by
  intro cks
  induction cks with
  | nil => intro st _; rfl
  | cons c rest ih =>
    intro st h
    have hstep := stepCheckpoint_skip sp hc eng ds dir p st c (h c (by simp))
    simp only [evalCheckpoints, hstep]
    exact ih st (fun c2 h2 => h c2 (by simp [h2]))

/-! A lemma about the argument parser. -/

theorem parseArgsFuel_preset :
    ∀ (f : Nat) (acc : Args) (argv : List Str) (args : Args),
      acc.preset ∈ presetChoices →
      parseArgsFuel f acc argv = some args → args.preset ∈ presetChoices := by
  intro f
  induction f with
  | zero =>
    intro acc argv args hacc hp
    match argv with
    | [] =>
      simp only [parseArgsFuel, Option.some.injEq] at hp
      exact hp ▸ hacc
    | t :: ts => simp [parseArgsFuel] at hp
  | succ f ih =>
    intro acc argv args hacc hp
    match argv with
    | [] =>
      simp only [parseArgsFuel, Option.some.injEq] at hp
      exact hp ▸ hacc
    | flag :: rest =>
      simp only [parseArgsFuel] at hp
      split at hp
      · exact ih _ _ _ (by simpa using hacc) hp
      · split at hp
        · simp at hp
        · split at hp
          · simp at hp
          · split at hp
            · exact ih _ _ _ (by simpa using hacc) hp
            · split at hp
              · exact ih _ _ _ (by simpa using hacc) hp
              · split at hp
                · exact ih _ _ _ (by simpa using hacc) hp
                · split at hp
                  · split at hp
                    · rename_i hv
                      exact ih _ _ _ (by simpa using hv) hp
                    · simp at hp
                  · simp at hp

/-! Claim theorems. -/

/-- C1: the evaluator computes the output path as output_dir + "/" +
(checkpoint with every "/" replaced by "-") + "." + preset + ".csv"; a
checkpoint whose output file already exists is skipped with the whole
state (directory contents, warnings, generation-call count) untouched;
and re-running the loop after a prior successful completion returns the
state unchanged, in particular performing zero generation calls. -/
theorem c1_output_path_idempotent_skip {Model : Type}
    (sp : Model → Str → Model) (hc : Model → Model)
    (eng : Model → Nat → BenchmarkExample → Option (List Str))
    (ds : List BenchmarkExample) (dir p : Str) (st : EvalState Model)
    (c : Str) (cks : List Str) :
    output_file dir p c
      = dir ++ "/".data ++ pyReplace "/".data "-".data c
        ++ ".".data ++ p ++ ".csv".data
    ∧ (fsExists st.fs (output_file dir p c) = true →
        stepCheckpoint sp hc eng ds dir p st c = (st, true))
    ∧ ((evalCheckpoints sp hc eng ds dir p st cks).2 = true →
        evalCheckpoints sp hc eng ds dir p
            (evalCheckpoints sp hc eng ds dir p st cks).1 cks
          = ((evalCheckpoints sp hc eng ds dir p st cks).1, true)
        ∧ (evalCheckpoints sp hc eng ds dir p
              (evalCheckpoints sp hc eng ds dir p st cks).1 cks).1.genCalls
          = (evalCheckpoints sp hc eng ds dir p st cks).1.genCalls) := by
  refine ⟨rfl, stepCheckpoint_skip sp hc eng ds dir p st c, ?_⟩
  intro hdone
  have hall := evalCheckpoints_all_exist sp hc eng ds dir p cks st hdone
  have hrun := evalCheckpoints_skip_all sp hc eng ds dir p cks _ hall
  exact ⟨hrun, by rw [hrun]⟩

/-- Witness for C1 at a concrete filesystem and checkpoint list. -/
theorem c1_output_path_idempotent_skip_witness :
    stepCheckpoint (fun (m : Unit) _ => m) (fun m => m)
        (fun _ _ _ => some []) [] "eval".data "greedy".data
        ⟨(), [("eval/a-b.greedy.csv".data, [CsvLine.header])], [], 0⟩
        "a/b".data
      = (⟨(), [("eval/a-b.greedy.csv".data, [CsvLine.header])], [], 0⟩, true)
    ∧ evalCheckpoints (fun (m : Unit) _ => m) (fun m => m)
        (fun _ _ _ => some []) [] "eval".data "greedy".data
        (evalCheckpoints (fun (m : Unit) _ => m) (fun m => m)
          (fun _ _ _ => some []) [] "eval".data "greedy".data
          ⟨(), [], [], 0⟩ ["a/b".data]).1 ["a/b".data]
      = ((evalCheckpoints (fun (m : Unit) _ => m) (fun m => m)
          (fun _ _ _ => some []) [] "eval".data "greedy".data
          ⟨(), [], [], 0⟩ ["a/b".data]).1, true) :=
  ⟨(c1_output_path_idempotent_skip (fun (m : Unit) _ => m) (fun m => m)
      (fun _ _ _ => some []) [] "eval".data "greedy".data
      ⟨(), [("eval/a-b.greedy.csv".data, [CsvLine.header])], [], 0⟩
      "a/b".data []).2.1 (by decide),
   ((c1_output_path_idempotent_skip (fun (m : Unit) _ => m) (fun m => m)
      (fun _ _ _ => some []) [] "eval".data "greedy".data
      ⟨(), [], [], 0⟩ "a/b".data ["a/b".data]).2.2 (by decide)).1⟩

/-- C2 counterexample: on the decoded text given below, which contains
the response marker, one bos-marker deletion splices the surrounding
characters into a new occurrence that survives both passes, so the
extracted hypothesis still contains the literal begin-of-sequence
marker, refuting the claim that no residual marker remains. -/
theorem c2_counterexample :
    respMarker <:+: "[/INST]<<s>s>".data
    ∧ (processSequence "1".data "[/INST]<<s>s>".data).1 = "<s>".data
    ∧ bosText <:+: (processSequence "1".data "[/INST]<<s>s>".data).1 := by
  decide

/-- C2 (amended): extraction takes the substring after the first
response marker, removes bos then eos marker occurrences each in one
left-to-right pass and trims whitespace; in particular, when that
substring contains no marker it is returned exactly (trimmed), and a
bos/eos framing pair around it is removed — but spliced-in occurrences
can survive, per the counterexample. -/
theorem c2_extract_after_marker (exid u w : Str)
    (hu : ¬ respMarker <:+: u)
    (hw1 : ¬ bosText <:+: w) (hw2 : ¬ eosText <:+: w) :
    processSequence exid (u ++ respMarker ++ w) = (pyStrip w, [])
    ∧ processSequence exid (u ++ respMarker ++ (bosText ++ (w ++ eosText)))
      = (pyStrip w, []) := by
  have hsplit1 := splitAtFirst_at_marker respMarker_ne_nil
    respMarker_borderfree u w hu
  have hsplit2 := splitAtFirst_at_marker respMarker_ne_nil
    respMarker_borderfree u (bosText ++ (w ++ eosText)) hu
  constructor
  · simp only [processSequence, hsplit1]
    rw [pyReplace_no_occurrence hw1, pyReplace_no_occurrence hw2]
  · simp only [processSequence, hsplit2]
    rw [pyReplace_head (by decide) (w ++ eosText), List.nil_append]
    rw [pyReplace_append_left w hw1
      (fun k hk1 hk2 hand => bosText_drop_not_prefix_eos k hk1 hk2 hand.2)]
    rw [pyReplace_no_occurrence bosText_not_infix_eos]
    rw [pyReplace_append_left w hw2
      (fun k hk1 hk2 hand => eosText_drop_not_prefix_eos k hk1 hk2 hand.2)]
    rw [pyReplace_self (by decide), List.append_nil]

/-- Witness for C2 (amended) at a concrete prefix and answer. -/
theorem c2_extract_after_marker_witness :
    processSequence "1".data
        ("<s>[INST] hi ".data ++ respMarker ++ " ok ".data)
      = (pyStrip " ok ".data, [])
    ∧ processSequence "1".data
        ("<s>[INST] hi ".data ++ respMarker
          ++ (bosText ++ (" ok ".data ++ eosText)))
      = (pyStrip " ok ".data, []) :=
  c2_extract_after_marker "1".data "<s>[INST] hi ".data " ok ".data
    (by decide) (by decide) (by decide)

/-- C3: no step of a checkpoint's processing changes the base model
component of the evaluator state: both one loop iteration and the whole
checkpoint loop leave it exactly as loaded.  The external adapter-merge
capability is a pure function modelled from the spec (it returns a
derived model and must not mutate the shared base). -/
theorem c3_base_model_unchanged {Model : Type}
    (sp : Model → Str → Model) (hc : Model → Model)
    (eng : Model → Nat → BenchmarkExample → Option (List Str))
    (ds : List BenchmarkExample) (dir p : Str) (st : EvalState Model)
    (c : Str) (cks : List Str) :
    (stepCheckpoint sp hc eng ds dir p st c).1.base = st.base
    ∧ (evalCheckpoints sp hc eng ds dir p st cks).1.base = st.base :=
  ⟨stepCheckpoint_base sp hc eng ds dir p st c,
   evalCheckpoints_base sp hc eng ds dir p cks st⟩

/-- C4: for a checkpoint whose file does not yet exist and whose
generation calls all succeed, the loop reaches completion and the
written table is the header followed by exactly one row per generated
sequence across all examples, in dataset order and engine order, each
row taking id/source/reference from its example; the header appears
only in first position. -/
theorem c4_result_table_shape {Model : Type}
    (sp : Model → Str → Model) (hc : Model → Model)
    (eng : Model → Nat → BenchmarkExample → Option (List Str))
    (ds : List BenchmarkExample) (dir p : Str) (st : EvalState Model)
    (c : Str)
    (hnew : fsExists st.fs (output_file dir p c) = false)
    (hall : ∀ ex ∈ ds,
      (eng (hc (sp st.base c)) (beamsOf p) ex).isSome = true) :
    (stepCheckpoint sp hc eng ds dir p st c).2 = true
    ∧ fsLookup (stepCheckpoint sp hc eng ds dir p st c).1.fs
        (output_file dir p c)
      = some (CsvLine.header ::
          ds.flatMap (fun ex =>
            rowsFor ex ((eng (hc (sp st.base c)) (beamsOf p) ex).getD [])))
    ∧ CsvLine.header ∉
        ds.flatMap (fun ex =>
          rowsFor ex ((eng (hc (sp st.base c)) (beamsOf p) ex).getD [])) := by
  have hrun := runExamples_complete (eng (hc (sp st.base c)) (beamsOf p)) ds hall
  have hn : ¬ fsExists st.fs (output_file dir p c) = true := by simp [hnew]
  refine ⟨?_, ?_, header_notin_rows _ ds⟩
  · simp [stepCheckpoint, hn, hrun]
  · simp [stepCheckpoint, hn, hrun, fsLookup_write_self]

/-- Witness for C4 on the one-example scenario of the specification. -/
theorem c4_result_table_shape_witness :
    (stepCheckpoint (fun (m : Unit) _ => m) (fun m => m)
        (fun _ _ _ => some ["<s>[INST] Hello [/INST]Привіт</s>".data])
        [mkExample ⟨"1".data, "Hello".data, "Привіт".data⟩]
        "eval".data "greedy".data ⟨(), [], [], 0⟩ "a".data).2 = true
    ∧ fsLookup (stepCheckpoint (fun (m : Unit) _ => m) (fun m => m)
        (fun _ _ _ => some ["<s>[INST] Hello [/INST]Привіт</s>".data])
        [mkExample ⟨"1".data, "Hello".data, "Привіт".data⟩]
        "eval".data "greedy".data ⟨(), [], [], 0⟩ "a".data).1.fs
        (output_file "eval".data "greedy".data "a".data)
      = some (CsvLine.header ::
          [mkExample ⟨"1".data, "Hello".data, "Привіт".data⟩].flatMap
            (fun ex => rowsFor ex
              ((some ["<s>[INST] Hello [/INST]Привіт</s>".data]).getD [])))
    ∧ CsvLine.header ∉
        [mkExample ⟨"1".data, "Hello".data, "Привіт".data⟩].flatMap
          (fun ex => rowsFor ex
            ((some ["<s>[INST] Hello [/INST]Привіт</s>".data]).getD [])) :=
  c4_result_table_shape (fun (m : Unit) _ => m) (fun m => m)
    (fun _ _ _ => some ["<s>[INST] Hello [/INST]Привіт</s>".data])
    [mkExample ⟨"1".data, "Hello".data, "Привіт".data⟩]
    "eval".data "greedy".data ⟨(), [], [], 0⟩ "a".data
    (by decide) (by decide)

/-- C5: a decoded text without the response marker yields an empty
hypothesis and exactly one warning carrying the example id, and the
loop still runs to completion whenever every generation call succeeds,
whatever the decoded texts are (the missing marker is non-fatal). -/
theorem c5_missing_marker_warning
    (exid out : Str) (gen : BenchmarkExample → Option (List Str))
    (ds : List BenchmarkExample)
    (h : ¬ respMarker <:+: out)
    (hall : ∀ ex ∈ ds, (gen ex).isSome = true) :
    processSequence exid out = ([], [⟨exid, out⟩])
    ∧ (runExamples gen ds).completed = true := by
  constructor
  · simp only [processSequence, splitAtFirst_eq_none h]
  · rw [runExamples_complete gen ds hall]

/-- Witness for C5 on the no-marker scenario of the specification. -/
theorem c5_missing_marker_warning_witness :
    processSequence "1".data "Hello there".data
      = ([], [⟨"1".data, "Hello there".data⟩])
    ∧ (runExamples (fun _ => some ["Hello there".data])
        [mkExample ⟨"1".data, "Hello".data, "Привіт".data⟩]).completed
      = true :=
  c5_missing_marker_warning "1".data "Hello there".data
    (fun _ => some ["Hello there".data])
    [mkExample ⟨"1".data, "Hello".data, "Привіт".data⟩]
    (by decide) (by decide)

/-- C6 counterexample: with an engine that raises on every generation
call and two checkpoints listed, the run aborts during the first
checkpoint (its partial table exists), and the second checkpoint is
never attempted in the same run — no file for it is even created —
refuting the claim that later checkpoints are still attempted. -/
theorem c6_counterexample :
    (evalCheckpoints (fun (m : Unit) _ => m) (fun m => m)
        (fun _ _ _ => none)
        [mkExample ⟨"1".data, "Hello".data, "Привіт".data⟩]
        "eval".data "greedy".data ⟨(), [], [], 0⟩
        ["a".data, "b".data]).2 = false
    ∧ fsExists (evalCheckpoints (fun (m : Unit) _ => m) (fun m => m)
        (fun _ _ _ => none)
        [mkExample ⟨"1".data, "Hello".data, "Привіт".data⟩]
        "eval".data "greedy".data ⟨(), [], [], 0⟩
        ["a".data, "b".data]).1.fs
        (output_file "eval".data "greedy".data "a".data) = true
    ∧ fsExists (evalCheckpoints (fun (m : Unit) _ => m) (fun m => m)
        (fun _ _ _ => none)
        [mkExample ⟨"1".data, "Hello".data, "Привіт".data⟩]
        "eval".data "greedy".data ⟨(), [], [], 0⟩
        ["a".data, "b".data]).1.fs
        (output_file "eval".data "greedy".data "b".data) = false := by
  decide

/-- C6 (amended): an engine failure at some example of a checkpoint is
not caught: the checkpoint's loop aborts leaving a partial table (header
plus the rows of the examples processed before the failure), every
other path in the output directory is untouched, and the whole run
stops — the result for the list c :: rest does not depend on rest, so
the remaining checkpoints are not attempted in that run. -/
theorem c6_generation_failure_aborts_run {Model : Type}
    (sp : Model → Str → Model) (hc : Model → Model)
    (eng : Model → Nat → BenchmarkExample → Option (List Str))
    (dir p : Str) (st : EvalState Model) (c : Str)
    (ds1 ds2 : List BenchmarkExample) (exf : BenchmarkExample)
    (hnew : fsExists st.fs (output_file dir p c) = false)
    (h1 : ∀ ex ∈ ds1, (eng (hc (sp st.base c)) (beamsOf p) ex).isSome = true)
    (hf : eng (hc (sp st.base c)) (beamsOf p) exf = none) :
    (stepCheckpoint sp hc eng (ds1 ++ exf :: ds2) dir p st c).2 = false
    ∧ fsLookup
        (stepCheckpoint sp hc eng (ds1 ++ exf :: ds2) dir p st c).1.fs
        (output_file dir p c)
      = some (CsvLine.header ::
          ds1.flatMap (fun ex =>
            rowsFor ex ((eng (hc (sp st.base c)) (beamsOf p) ex).getD [])))
    ∧ (∀ q, q ≠ output_file dir p c →
        fsLookup
            (stepCheckpoint sp hc eng (ds1 ++ exf :: ds2) dir p st c).1.fs q
          = fsLookup st.fs q)
    ∧ ∀ rest,
        evalCheckpoints sp hc eng (ds1 ++ exf :: ds2) dir p st (c :: rest)
          = ((stepCheckpoint sp hc eng (ds1 ++ exf :: ds2) dir p st c).1,
              false) := by
  have hrun := runExamples_fail (eng (hc (sp st.base c)) (beamsOf p))
    exf hf ds1 ds2 h1
  have hn : ¬ fsExists st.fs (output_file dir p c) = true := by simp [hnew]
  have h2 : (stepCheckpoint sp hc eng (ds1 ++ exf :: ds2) dir p st c).2
      = false := by
    simp [stepCheckpoint, hn, hrun]
  refine ⟨h2, ?_, ?_, ?_⟩
  · simp [stepCheckpoint, hn, hrun, fsLookup_write_self]
  · intro q hq
    simp [stepCheckpoint, hn, hrun, fsLookup_write_other _ _ _ _ hq]
  · intro rest
    simp only [evalCheckpoints]
    rw [if_neg (by simp [h2])]

/-- Witness for C6 (amended): failure at the only example. -/
theorem c6_generation_failure_aborts_run_witness :
    (stepCheckpoint (fun (m : Unit) _ => m) (fun m => m)
        (fun _ _ _ => none)
        ([] ++ mkExample ⟨"1".data, "Hello".data, "Привіт".data⟩ :: [])
        "eval".data "greedy".data ⟨(), [], [], 0⟩ "a".data).2 = false
    ∧ fsLookup (stepCheckpoint (fun (m : Unit) _ => m) (fun m => m)
        (fun _ _ _ => none)
        ([] ++ mkExample ⟨"1".data, "Hello".data, "Привіт".data⟩ :: [])
        "eval".data "greedy".data ⟨(), [], [], 0⟩ "a".data).1.fs
        (output_file "eval".data "greedy".data "a".data)
      = some [CsvLine.header]
    ∧ (∀ q, q ≠ output_file "eval".data "greedy".data "a".data →
        fsLookup (stepCheckpoint (fun (m : Unit) _ => m) (fun m => m)
          (fun _ _ _ => none)
          ([] ++ mkExample ⟨"1".data, "Hello".data, "Привіт".data⟩ :: [])
          "eval".data "greedy".data ⟨(), [], [], 0⟩ "a".data).1.fs q
          = fsLookup ([] : FS) q)
    ∧ ∀ rest,
        evalCheckpoints (fun (m : Unit) _ => m) (fun m => m)
          (fun _ _ _ => none)
          ([] ++ mkExample ⟨"1".data, "Hello".data, "Привіт".data⟩ :: [])
          "eval".data "greedy".data ⟨(), [], [], 0⟩ ("a".data :: rest)
          = ((stepCheckpoint (fun (m : Unit) _ => m) (fun m => m)
              (fun _ _ _ => none)
              ([] ++ mkExample ⟨"1".data, "Hello".data, "Привіт".data⟩ :: [])
              "eval".data "greedy".data ⟨(), [], [], 0⟩ "a".data).1, false) :=
  c6_generation_failure_aborts_run (fun (m : Unit) _ => m) (fun m => m)
    (fun _ _ _ => none) "eval".data "greedy".data ⟨(), [], [], 0⟩ "a".data
    [] [] (mkExample ⟨"1".data, "Hello".data, "Привіт".data⟩)
    (by decide) (by simp) rfl

/-- C7: the preset-to-beam-count mapping is exactly greedy to 1, beam10
to 10, beam15 to 15 and beam25 to 25; any other preset value makes the
argument parser fail; a successful parse only ever carries one of the
four admissible presets; and a parse failure ends the run with a usage
error whatever the dataset is, i.e. before the dataset is used. -/
theorem c7_preset_mapping :
    (beamsOf "greedy".data = 1 ∧ beamsOf "beam10".data = 10
      ∧ beamsOf "beam15".data = 15 ∧ beamsOf "beam25".data = 25)
    ∧ (∀ (acc : Args) (v : Str) (rest : List Str), v ∉ presetChoices →
        parseArgsFrom acc ("--preset".data :: v :: rest) = none)
    ∧ (∀ (argv : List Str) (args : Args),
        parseArgsFrom defaultArgs argv = some args →
        args.preset ∈ presetChoices)
    ∧ (∀ (Model : Type) (sp : Model → Str → Model) (hc : Model → Model)
        (eng : Model → Nat → BenchmarkExample → Option (List Str))
        (base : Model) (rows : List Row) (fs : FS) (argv : List Str),
        parseArgsFrom defaultArgs argv = none →
        runMain sp hc eng base rows fs argv = MainResult.usageError) := by
  refine ⟨by decide, ?_, ?_, ?_⟩
  · intro acc v rest hv
    show parseArgsFuel (rest.length + 1 + 1) acc
      ("--preset".data :: v :: rest) = none
    by_cases hpre : "--".data.isPrefixOf v = true
    · simp [parseArgsFuel, hpre]
    · simp [parseArgsFuel, hpre, hv]
  · intro argv args hp
    exact parseArgsFuel_preset argv.length defaultArgs argv args
      (by decide) hp
  · intro Model sp hc eng base rows fs argv hnone
    simp only [runMain, hnone]

/-- Witness for C7: a rejected preset value and a run that exits with a
usage error, plus a successful parse carrying an admissible preset. -/
theorem c7_preset_mapping_witness :
    parseArgsFrom defaultArgs ["--preset".data, "random".data] = none
    ∧ "beam10".data ∈ presetChoices
    ∧ runMain (fun (m : Unit) _ => m) (fun m => m) (fun _ _ _ => some [])
        () [] [] ["--preset".data, "random".data]
      = MainResult.usageError :=
  ⟨c7_preset_mapping.2.1 defaultArgs "random".data [] (by decide),
   c7_preset_mapping.2.2.1 ["--preset".data, "beam10".data]
     { defaultArgs with preset := "beam10".data } (by decide),
   c7_preset_mapping.2.2.2 Unit (fun m _ => m) (fun m => m)
     (fun _ _ _ => some []) () [] [] ["--preset".data, "random".data]
     (by decide)⟩

/-- C8 counterexample: the parser accepts an invocation that supplies
the checkpoints option with zero values (and the run then proceeds and
finishes having evaluated nothing), and it also accepts an invocation
that omits the option entirely — refuting the claim that both are
rejected at argument-parsing time. -/
theorem c8_counterexample :
    parseArgsFrom defaultArgs ["--checkpoints".data]
      = some { defaultArgs with checkpoints := some [] }
    ∧ parseArgsFrom defaultArgs [] = some defaultArgs
    ∧ runMain (fun (m : Unit) _ => m) (fun m => m) (fun _ _ _ => some [])
        () [] [] ["--checkpoints".data]
      = MainResult.finished ⟨(), [], [], 0⟩ true := by
  exact ⟨by decide, rfl, by decide⟩

/-- C8 (amended): the checkpoints option is not validated at parse
time: omitting it leaves the parsed value absent and the program
crashes right after parsing at the len() call, before the dataset is
read; supplying it with zero values parses to an empty list and the run
proceeds and completes having evaluated no checkpoint. -/
theorem c8_checkpoints_not_validated {Model : Type}
    (sp : Model → Str → Model) (hc : Model → Model)
    (eng : Model → Nat → BenchmarkExample → Option (List Str))
    (base : Model) (rows : List Row) (fs : FS) :
    runMain sp hc eng base rows fs [] = MainResult.crashedAtLen
    ∧ runMain sp hc eng base rows fs ["--checkpoints".data]
      = MainResult.finished ⟨base, fs, [], 0⟩ true :=
  ⟨rfl, rfl⟩

/-- C9: the prompt template and the extractor are in lock-step through
the shared delimiter: for a source without the response marker and a
continuation free of the marker and of the bos/eos texts, extracting
from the rendered prompt followed by the continuation returns exactly
the continuation with surrounding whitespace trimmed, and no warning. -/
theorem c9_template_extractor_lockstep (exid s h : Str)
    (hs : ¬ respMarker <:+: s)
    (hh1 : ¬ respMarker <:+: h)
    (hh2 : ¬ bosText <:+: h) (hh3 : ¬ eosText <:+: h) :
    processSequence exid (generate_prompt s ++ h) = (pyStrip h, []) := by
  have hform : generate_prompt s ++ h
      = (("[INST] ".data ++ s) ++ [' ']) ++ respMarker ++ h := by
    simp [generate_prompt, space_marker_eq, respMarker, List.append_assoc]
  have hu : ¬ respMarker <:+: (("[INST] ".data ++ s) ++ [' ']) := by
    intro hinf
    rcases infix_append_cases hinf with h1 | h1 | ⟨k, hk0, hk1, hk2, hk3⟩
    · rcases infix_append_cases h1 with h2 | h2 | ⟨k, hk0, hk1, hk2, hk3⟩
      · exact respMarker_not_infix_template h2
      · exact hs h2
      · exact respMarker_take_not_suffix_template k hk1 hk0 hk2
    · exact respMarker_not_infix_space h1
    · exact respMarker_drop_not_prefix_space k hk1 hk0 hk3
  rw [hform]
  have hsplit := splitAtFirst_at_marker respMarker_ne_nil
    respMarker_borderfree (("[INST] ".data ++ s) ++ [' ']) h hu
  simp only [processSequence, hsplit]
  rw [pyReplace_no_occurrence hh2, pyReplace_no_occurrence hh3]

/-- Witness for C9 on a concrete source and continuation. -/
theorem c9_template_extractor_lockstep_witness :
    processSequence "1".data
        (generate_prompt "Hello".data ++ " Привіт ".data)
      = (pyStrip " Привіт ".data, []) :=
  c9_template_extractor_lockstep "1".data "Hello".data " Привіт ".data
    (by decide) (by decide) (by decide) (by decide)

/-- C10: for a decoded text whose first response-marker occurrence
splits it as u ++ marker ++ v, extraction returns exactly the result of
deleting every bos-text occurrence of v in one pass, then every
eos-text occurrence of that intermediate result in one pass, then
trimming whitespace — so marker text in the middle of the answer is
deleted as well, not only leading or trailing framing. -/
theorem c10_global_two_pass_removal (exid t u v : Str)
    (hdec : t = u ++ respMarker ++ v)
    (hfirst : ∀ u2 v2, t = u2 ++ respMarker ++ v2 → u.length ≤ u2.length) :
    processSequence exid t
      = (pyStrip (pyReplace eosText [] (pyReplace bosText [] v)), []) := by
  subst hdec
  have hsplit := splitAtFirst_first respMarker_ne_nil u v hfirst
  simp only [processSequence, hsplit]

/-- Witness for C10: markers in the middle of the answer are deleted. -/
theorem c10_global_two_pass_removal_witness :
    processSequence "1".data "[/INST] a<s>b</s>c".data
      = ("abc".data, []) := by
  have h := c10_global_two_pass_removal "1".data "[/INST] a<s>b</s>c".data
    [] " a<s>b</s>c".data (by decide) (fun u2 v2 _ => Nat.zero_le _)
  rw [h]
  decide
